import Mathlib

/-!
Verification of the matsimu simulation core against its specification.

The C++ `Real` type is `double`; arithmetic is modelled exactly, over `ℚ`
for the algebraic components and over `ℝ` where square roots or limits
appear (thermostat scaling, continuity at the potential cutoff).
Machine integers (`std::size_t`) are modelled as `Nat`, with `% 2^64`
where wraparound matters (the bounded allocator's byte counter).
-/

namespace Matsimu

/-- 3-vector, mirroring the C++ `Real[3]` arrays. -/
structure Vec3 (α : Type) where
  x : α
  y : α
  z : α
deriving DecidableEq

instance [Add α] : Add (Vec3 α) := ⟨fun u v => ⟨u.x + v.x, u.y + v.y, u.z + v.z⟩⟩

instance [Sub α] : Sub (Vec3 α) := ⟨fun u v => ⟨u.x - v.x, u.y - v.y, u.z - v.z⟩⟩

instance [Neg α] : Neg (Vec3 α) := ⟨fun v => ⟨-v.x, -v.y, -v.z⟩⟩

instance [OfNat α 0] : OfNat (Vec3 α) 0 := ⟨⟨0, 0, 0⟩⟩

@[simp] lemma Vec3.add_def [Add α] (u v : Vec3 α) :
    u + v = ⟨u.x + v.x, u.y + v.y, u.z + v.z⟩ := rfl

@[simp] lemma Vec3.sub_def [Sub α] (u v : Vec3 α) :
    u - v = ⟨u.x - v.x, u.y - v.y, u.z - v.z⟩ := rfl

@[simp] lemma Vec3.neg_def [Neg α] (v : Vec3 α) : -v = ⟨-v.x, -v.y, -v.z⟩ := rfl

@[simp] lemma Vec3.zero_x [OfNat α 0] : (0 : Vec3 α).x = 0 := rfl

@[simp] lemma Vec3.zero_y [OfNat α 0] : (0 : Vec3 α).y = 0 := rfl

@[simp] lemma Vec3.zero_z [OfNat α 0] : (0 : Vec3 α).z = 0 := rfl

/-- Dot product of two 3-vectors. -/
def dot [Mul α] [Add α] (u v : Vec3 α) : α :=
  u.x * v.x + u.y * v.y + u.z * v.z

/-- Cross product of two 3-vectors (component order as in the C++ source). -/
def cross [Mul α] [Sub α] (u v : Vec3 α) : Vec3 α :=
  ⟨u.y * v.z - u.z * v.y, u.z * v.x - u.x * v.z, u.x * v.y - u.y * v.x⟩

/-- `std::numeric_limits<Real>::epsilon()` for `double`: 2⁻⁵². -/
def machineEps : ℚ := 1 / 2 ^ 52

/-- C++ `std::round`: round half away from zero. -/
def roundC (q : ℚ) : ℚ :=
  if 0 ≤ q then ((⌊q + 1 / 2⌋ : ℤ) : ℚ) else ((-⌊-q + 1 / 2⌋ : ℤ) : ℚ)

/-- `Lattice`: three basis vectors with the C++ default unit-cube basis
(`Real a1[3]{1, 0, 0}` and so on in `lattice.hpp`). -/
structure Lattice where
  a1 : Vec3 ℚ := ⟨1, 0, 0⟩
  a2 : Vec3 ℚ := ⟨0, 1, 0⟩
  a3 : Vec3 ℚ := ⟨0, 0, 1⟩
deriving DecidableEq

/-- `Lattice::volume`: scalar triple product a1 · (a2 × a3). -/
def Lattice.volume (L : Lattice) : ℚ :=
  dot L.a1 (cross L.a2 L.a3)

/-- First loop of `Lattice::min_image_frac`:
`while (frac[i] >= 0.5) frac[i] -= 1.0;`. -/
def reduceHi (f : ℚ) : ℚ :=
  if h : 1 / 2 ≤ f then reduceHi (f - 1) else f
termination_by (⌈f⌉).toNat
decreasing_by
  have h1 : (1 : ℤ) ≤ ⌈f⌉ := by
    have hc : (⌈(1 / 2 : ℚ)⌉ : ℤ) ≤ ⌈f⌉ := Int.ceil_le_ceil h
    have he : (⌈(1 / 2 : ℚ)⌉ : ℤ) = 1 := by
      rw [Int.ceil_eq_iff] <;> norm_num
    omega
  have h2 : ⌈f - 1⌉ = ⌈f⌉ - 1 := by
    have := Int.ceil_sub_int f (1 : ℤ)
    simpa using this
  omega

/-- Second loop of `Lattice::min_image_frac`:
`while (frac[i] < -0.5) frac[i] += 1.0;`. -/
def reduceLo (f : ℚ) : ℚ :=
  if h : f < -(1 / 2) then reduceLo (f + 1) else f
termination_by (-⌊f⌋).toNat
decreasing_by
  have h1 : ⌊f⌋ ≤ -1 := by
    have hc : (⌊f⌋ : ℤ) ≤ ⌊(-(1 / 2) : ℚ)⌋ := Int.floor_le_floor h.le
    have he : (⌊(-(1 / 2) : ℚ)⌋ : ℤ) = -1 := by
      rw [Int.floor_eq_iff] <;> norm_num
    omega
  have h2 : ⌊f + 1⌋ = ⌊f⌋ + 1 := by
    have := Int.floor_add_int f (1 : ℤ)
    simpa using this
  omega

/-- One component of `Lattice::min_image_frac`: both wrap loops in order. -/
def minImageFracC (f : ℚ) : ℚ :=
  reduceLo (reduceHi f)

/-- `Lattice::min_image_frac`, applied componentwise. -/
def Lattice.min_image_frac (_L : Lattice) (frac : Vec3 ℚ) : Vec3 ℚ :=
  ⟨minImageFracC frac.x, minImageFracC frac.y, minImageFracC frac.z⟩

/-- `Lattice::cartesian_to_fractional` via Cramer's rule, including the
near-zero-volume guard (`|vol| < epsilon` gives the zero vector). -/
def Lattice.cartesian_to_fractional (L : Lattice) (cart : Vec3 ℚ) : Vec3 ℚ :=
  let vol := L.volume
  if |vol| < machineEps then ⟨0, 0, 0⟩
  else
    let inv_vol := 1 / vol
    let a2_cross_a3 := cross L.a2 L.a3
    let a3_cross_a1 := cross L.a3 L.a1
    let a1_cross_a2 := cross L.a1 L.a2
    ⟨inv_vol * dot a2_cross_a3 cart, inv_vol * dot a3_cross_a1 cart,
      inv_vol * dot a1_cross_a2 cart⟩

/-- `Lattice::fractional_to_cartesian`: cart = frac.x·a1 + frac.y·a2 + frac.z·a3. -/
def Lattice.fractional_to_cartesian (L : Lattice) (frac : Vec3 ℚ) : Vec3 ℚ :=
  ⟨frac.x * L.a1.x + frac.y * L.a2.x + frac.z * L.a3.x,
    frac.x * L.a1.y + frac.y * L.a2.y + frac.z * L.a3.y,
    frac.x * L.a1.z + frac.y * L.a2.z + frac.z * L.a3.z⟩

/-- `Lattice::wrap_cartesian`: to fractional, wrap each component to [0,1)
with `std::floor`, and back. -/
def Lattice.wrap_cartesian (L : Lattice) (cart : Vec3 ℚ) : Vec3 ℚ :=
  let frac := L.cartesian_to_fractional cart
  let wrapped : Vec3 ℚ :=
    ⟨frac.x - ((⌊frac.x⌋ : ℤ) : ℚ), frac.y - ((⌊frac.y⌋ : ℤ) : ℚ),
      frac.z - ((⌊frac.z⌋ : ℤ) : ℚ)⟩
  L.fractional_to_cartesian wrapped

/-- `Lattice::min_image_displacement`: Cartesian delta → fractional →
minimum image → Cartesian. -/
def Lattice.min_image_displacement (L : Lattice) (r1 r2 : Vec3 ℚ) : Vec3 ℚ :=
  let dr := r2 - r1
  let frac := L.cartesian_to_fractional dr
  L.fractional_to_cartesian (L.min_image_frac frac)

lemma reduceHi_lt_half (f : ℚ) : reduceHi f < 1 / 2 := by
  induction f using reduceHi.induct with
  | case1 f h ih => rwa [reduceHi, dif_pos h]
  | case2 f h => rw [reduceHi, dif_neg h]; linarith

lemma reduceLo_mem (f : ℚ) (hf : f < 1 / 2) :
    -(1 / 2) ≤ reduceLo f ∧ reduceLo f < 1 / 2 := by
  induction f using reduceLo.induct with
  | case1 f h ih =>
    rw [reduceLo, dif_pos h]
    exact ih (by linarith)
  | case2 f h =>
    rw [reduceLo, dif_neg h]
    exact ⟨by linarith, hf⟩

lemma minImageFracC_mem (f : ℚ) :
    -(1 / 2) ≤ minImageFracC f ∧ minImageFracC f < 1 / 2 :=
  reduceLo_mem _ (reduceHi_lt_half f)

/-- Claim C6: for every fractional input, every component of the vector
produced by `Lattice::min_image_frac` lies in the half-open interval
[-0.5, 0.5). -/
theorem C6_min_image_frac_bounds (L : Lattice) (frac : Vec3 ℚ) :
    (-(1 / 2) ≤ (L.min_image_frac frac).x ∧ (L.min_image_frac frac).x < 1 / 2) ∧
    (-(1 / 2) ≤ (L.min_image_frac frac).y ∧ (L.min_image_frac frac).y < 1 / 2) ∧
    (-(1 / 2) ≤ (L.min_image_frac frac).z ∧ (L.min_image_frac frac).z < 1 / 2) :=
  ⟨minImageFracC_mem frac.x, minImageFracC_mem frac.y, minImageFracC_mem frac.z⟩

/-- `HeatDiffusionParams` with the C++ field defaults (`heat_diffusion.hpp`). -/
structure HeatDiffusionParams where
  alpha : ℚ := 1 / 10 ^ 5
  dx : ℚ := 1 / 10 ^ 3
  dt : ℚ := 1 / 10 ^ 6
  end_time : ℚ := 1 / 10 ^ 3
  max_steps : Nat := 1000000
  n_cells : Nat := 100
deriving DecidableEq

/-- `HeatDiffusionParams::stability_limit`: dx²/(2·alpha), 0 when alpha or dx
is non-positive. -/
def HeatDiffusionParams.stability_limit (p : HeatDiffusionParams) : ℚ :=
  if p.alpha ≤ 0 ∨ p.dx ≤ 0 then 0 else p.dx * p.dx / (2 * p.alpha)

/-- `HeatDiffusionParams::validate`. Over ℚ every value is finite, so the
`std::isfinite` arms of each C++ condition are identically true. -/
def HeatDiffusionParams.validate (p : HeatDiffusionParams) : Option String :=
  if p.alpha ≤ 0 then some "Thermal diffusivity alpha must be positive and finite."
  else if p.dx ≤ 0 then some "Grid spacing dx must be positive and finite."
  else if p.dt ≤ 0 then some "Time step dt must be positive and finite."
  else if p.end_time < 0 then some "End time must be non-negative and finite."
  else if p.max_steps = 0 then some "Maximum steps must be greater than 0."
  else if p.n_cells < 2 then some "Number of cells must be at least 2."
  else if p.dt > p.stability_limit then
    some "Time step dt exceeds stability limit."
  else none

/-- `HeatDiffusionModel` state: parameters, cell count, the two temperature
buffers, time, step count, validity. -/
structure HeatDiffusionModel where
  params : HeatDiffusionParams
  n : Nat
  T : List ℚ
  T_next : List ℚ
  time : ℚ
  step_count : Nat
  error_msg : String
  valid : Bool
deriving DecidableEq

/-- `HeatDiffusionModel::initialize` (C++ member `initialize`): fill with 0,
then for n ≥ 2 force both ends to 0 and the interior to 300 K. -/
def initTemps (n : Nat) : List ℚ :=
  if 2 ≤ n then
    (List.range n).map fun i => if i = 0 ∨ i = n - 1 then 0 else 300
  else List.replicate n 0

/-- `HeatDiffusionModel` constructor: validate, size both buffers, initialize. -/
def mkHeatModel (p : HeatDiffusionParams) : HeatDiffusionModel :=
  match p.validate with
  | some e =>
      { params := p, n := p.n_cells, T := [], T_next := [], time := 0,
        step_count := 0, error_msg := e, valid := false }
  | none =>
      { params := p, n := p.n_cells, T := initTemps p.n_cells,
        T_next := initTemps p.n_cells, time := 0, step_count := 0,
        error_msg := "", valid := true }

/-- `HeatDiffusionModel::finished`: invalid, or step_count ≥ max_steps, or
time ≥ end_time.  Note: no `end_time > 0` guard, unlike `Simulation::finished`
in MD mode. -/
def HeatDiffusionModel.finished (m : HeatDiffusionModel) : Bool :=
  if ¬m.valid then true
  else if m.params.max_steps ≤ m.step_count then true
  else if m.params.end_time ≤ m.time then true
  else false

/-- `HeatDiffusionModel::step`: explicit Euler stencil on the interior,
boundary cells copied from the previous field, buffers swapped, time and
step count advanced.  The `std::isfinite(time_)` failure arm cannot fire
over ℚ and has no effect on the returned field. -/
def HeatDiffusionModel.step (m : HeatDiffusionModel) : Bool × HeatDiffusionModel :=
  if ¬m.valid ∨ m.finished then (false, m)
  else
    let r := m.params.alpha * m.params.dt / (m.params.dx * m.params.dx)
    let Tn := (List.range m.n).map fun i =>
      if i = 0 ∨ i = m.n - 1 then m.T.getD i 0
      else m.T.getD i 0 + r * (m.T.getD (i - 1) 0 - 2 * m.T.getD i 0 + m.T.getD (i + 1) 0)
    (true, { m with T := Tn, T_next := m.T,
                    time := m.time + m.params.dt,
                    step_count := m.step_count + 1 })

/-- Iterated stepping of the heat model (`step()` called k times). -/
def HeatDiffusionModel.stepN (m : HeatDiffusionModel) : Nat → HeatDiffusionModel
  | 0 => m
  | k + 1 => (m.step).2.stepN k

/-- Claim C3: with all other fields valid, `validate()` errors exactly when
dt exceeds `stability_limit()` = dx²/(2·alpha). -/
theorem C3_stability_gate (p : HeatDiffusionParams)
    (ha : 0 < p.alpha) (hdx : 0 < p.dx) (hdt : 0 < p.dt)
    (he : 0 ≤ p.end_time) (hm : 0 < p.max_steps) (hn : 2 ≤ p.n_cells) :
    ((p.validate).isSome ↔ p.stability_limit < p.dt) ∧
    p.stability_limit = p.dx * p.dx / (2 * p.alpha) := by
  have hsl : p.stability_limit = p.dx * p.dx / (2 * p.alpha) := by
    rw [HeatDiffusionParams.stability_limit, if_neg]
    push_neg
    constructor <;> linarith
  refine ⟨?_, hsl⟩
  rw [HeatDiffusionParams.validate]
  rw [if_neg (by linarith), if_neg (by linarith), if_neg (by linarith),
    if_neg (by linarith), if_neg (by omega), if_neg (by omega)]
  by_cases h : p.stability_limit < p.dt
  · rw [if_pos h]
    simp [h]
  · rw [if_neg h]
    simp [h]

/-- Witness for C3 at the C++ default parameter record: the default dt is
within the stability limit, so `validate()` returns no error. -/
theorem C3_stability_gate_witness :
    (0 < ({} : HeatDiffusionParams).alpha ∧ 2 ≤ ({} : HeatDiffusionParams).n_cells) ∧
    ((({} : HeatDiffusionParams).validate).isSome ↔
      ({} : HeatDiffusionParams).stability_limit < ({} : HeatDiffusionParams).dt) :=
  ⟨⟨by norm_num, by norm_num⟩,
    (C3_stability_gate {} (by norm_num) (by norm_num) (by norm_num)
      (by norm_num) (by norm_num) (by norm_num)).1⟩

lemma initTemps_getD (n i : Nat) (h2 : 2 ≤ n) (hi : i < n) :
    (initTemps n).getD i 0 = if i = 0 ∨ i = n - 1 then 0 else 300 := by
  rw [initTemps, if_pos h2, List.getD_eq_getElem?_getD, List.getElem?_map,
    List.getElem?_range hi]
  rfl

lemma heat_step_boundary (m : HeatDiffusionModel) (h2 : 2 ≤ m.n) :
    ((m.step).2.T.getD 0 0 = m.T.getD 0 0 ∧
      (m.step).2.T.getD (m.n - 1) 0 = m.T.getD (m.n - 1) 0) ∧
    (m.step).2.n = m.n := by
  rw [HeatDiffusionModel.step]
  by_cases hc : ¬m.valid = true ∨ m.finished = true
  · rw [if_pos hc]
    exact ⟨⟨rfl, rfl⟩, rfl⟩
  · rw [if_neg hc]
    refine ⟨⟨?_, ?_⟩, rfl⟩
    · simp only
      rw [List.getD_eq_getElem?_getD, List.getElem?_map,
        List.getElem?_range (by omega : 0 < m.n)]
      simp
    · simp only
      rw [List.getD_eq_getElem?_getD, List.getElem?_map,
        List.getElem?_range (by omega : m.n - 1 < m.n)]
      simp

lemma heat_stepN_boundary (m : HeatDiffusionModel) (h2 : 2 ≤ m.n) (k : Nat) :
    (m.stepN k).T.getD 0 0 = m.T.getD 0 0 ∧
    (m.stepN k).T.getD (m.n - 1) 0 = m.T.getD (m.n - 1) 0 := by
  induction k generalizing m with
  | zero => exact ⟨rfl, rfl⟩
  | succ k ih =>
    obtain ⟨⟨hb0, hb1⟩, hn⟩ := heat_step_boundary m h2
    have h2' : 2 ≤ (m.step).2.n := hn ▸ h2
    obtain ⟨ih0, ih1⟩ := ih (m.step).2 h2'
    rw [HeatDiffusionModel.stepN]
    exact ⟨ih0.trans hb0, by rw [hn] at ih1; exact ih1.trans hb1⟩

/-- Claim C10: every valid 1D heat model starts with the interior at exactly
300 K and both boundary cells at 0, and the boundary cells still hold 0
after every number of steps. -/
theorem C10_heat_boundaries (p : HeatDiffusionParams) (hv : p.validate = none) :
    ((mkHeatModel p).T.getD 0 0 = 0 ∧ (mkHeatModel p).T.getD (p.n_cells - 1) 0 = 0) ∧
    (∀ i, 0 < i → i < p.n_cells - 1 → (mkHeatModel p).T.getD i 0 = 300) ∧
    (∀ k, ((mkHeatModel p).stepN k).T.getD 0 0 = 0 ∧
      ((mkHeatModel p).stepN k).T.getD (p.n_cells - 1) 0 = 0) := by
  have h2 : 2 ≤ p.n_cells := by
    by_contra h
    rw [HeatDiffusionParams.validate] at hv
    by_cases h1 : p.alpha ≤ 0
    · rw [if_pos h1] at hv; exact Option.noConfusion hv
    · rw [if_neg h1] at hv
      by_cases h2 : p.dx ≤ 0
      · rw [if_pos h2] at hv; exact Option.noConfusion hv
      · rw [if_neg h2] at hv
        by_cases h3 : p.dt ≤ 0
        · rw [if_pos h3] at hv; exact Option.noConfusion hv
        · rw [if_neg h3] at hv
          by_cases h4 : p.end_time < 0
          · rw [if_pos h4] at hv; exact Option.noConfusion hv
          · rw [if_neg h4] at hv
            by_cases h5 : p.max_steps = 0
            · rw [if_pos h5] at hv; exact Option.noConfusion hv
            · rw [if_neg h5] at hv
              rw [if_pos (by omega)] at hv
              exact Option.noConfusion hv
  have hm : mkHeatModel p =
      { params := p, n := p.n_cells, T := initTemps p.n_cells,
        T_next := initTemps p.n_cells, time := 0, step_count := 0,
        error_msg := "", valid := true } := by
    rw [mkHeatModel, hv]
  have hT0 : (mkHeatModel p).T.getD 0 0 = 0 := by
    rw [hm]
    simp only
    rw [initTemps_getD _ _ h2 (by omega)]
    simp
  have hT1 : (mkHeatModel p).T.getD (p.n_cells - 1) 0 = 0 := by
    rw [hm]
    simp only
    rw [initTemps_getD _ _ h2 (by omega)]
    simp
  refine ⟨⟨hT0, hT1⟩, ?_, ?_⟩
  · intro i hi0 hi1
    rw [hm]
    simp only
    rw [initTemps_getD _ _ h2 (by omega), if_neg (by omega)]
  · intro k
    have hn : (mkHeatModel p).n = p.n_cells := by rw [hm]
    have := heat_stepN_boundary (mkHeatModel p) (by omega) k
    rw [hn] at this
    exact ⟨this.1.trans hT0, this.2.trans hT1⟩

/-- Witness for C10 at the default parameter record. -/
theorem C10_heat_boundaries_witness :
    ({} : HeatDiffusionParams).validate = none ∧
    ((mkHeatModel {}).stepN 3).T.getD 0 0 = 0 ∧
    (mkHeatModel {}).T.getD 1 0 = 300 := by
  have hv : ({} : HeatDiffusionParams).validate = none := by
    rw [HeatDiffusionParams.validate]
    norm_num [HeatDiffusionParams.stability_limit]
  have h := C10_heat_boundaries {} hv
  exact ⟨hv, (h.2.2 3).1, h.2.1 1 (by norm_num) (by norm_num)⟩

/-- `LennardJones` potential parameters (constructor arguments
epsilon, sigma, cutoff).  Generic in the scalar field so the same embedding
serves exact evaluation (ℚ) and continuity statements (ℝ). -/
structure LennardJones (α : Type) where
  epsilon : α
  sigma : α
  cutoff : α

/-- Precomputed `cutoff_sq_ = cutoff * cutoff`. -/
def LennardJones.cutoff_sq {α : Type} [LinearOrderedField α]
    (lj : LennardJones α) : α := lj.cutoff * lj.cutoff

/-- Precomputed `sigma_sq_ = sigma * sigma`. -/
def LennardJones.sigma_sq {α : Type} [LinearOrderedField α]
    (lj : LennardJones α) : α := lj.sigma * lj.sigma

/-- The constructor's energy shift for continuity at the cutoff. -/
def LennardJones.shift {α : Type} [LinearOrderedField α]
    (lj : LennardJones α) : α :=
  let r2_inv := lj.sigma_sq / lj.cutoff_sq
  let r6_inv := r2_inv * r2_inv * r2_inv
  let r12_inv := r6_inv * r6_inv
  4 * lj.epsilon * (r12_inv - r6_inv)

/-- The body of `LennardJones::energy` below the cutoff. -/
def LennardJones.energyBranch {α : Type} [LinearOrderedField α]
    (lj : LennardJones α) (r2 : α) : α :=
  let r2_inv := lj.sigma_sq / r2
  let r6_inv := r2_inv * r2_inv * r2_inv
  let r12_inv := r6_inv * r6_inv
  4 * lj.epsilon * (r12_inv - r6_inv) - lj.shift

/-- `LennardJones::energy`: 0 at and beyond the cutoff, shifted 12-6 form
below it. -/
def LennardJones.energy {α : Type} [LinearOrderedField α]
    (lj : LennardJones α) (r2 : α) : α :=
  if lj.cutoff_sq ≤ r2 then 0 else lj.energyBranch r2

/-- The body of `LennardJones::force_div_r` below the cutoff. -/
def LennardJones.forceBranch {α : Type} [LinearOrderedField α]
    (lj : LennardJones α) (r2 : α) : α :=
  let r2_inv := lj.sigma_sq / r2
  let r6_inv := r2_inv * r2_inv * r2_inv
  let r12_inv := r6_inv * r6_inv
  24 * lj.epsilon * (2 * r12_inv - r6_inv) / r2

/-- `LennardJones::force_div_r`: 0 at and beyond the cutoff. -/
def LennardJones.force_div_r {α : Type} [LinearOrderedField α]
    (lj : LennardJones α) (r2 : α) : α :=
  if lj.cutoff_sq ≤ r2 then 0 else lj.forceBranch r2

lemma lj_energyBranch_at_cutoff {α : Type} [LinearOrderedField α]
    (lj : LennardJones α) : lj.energyBranch lj.cutoff_sq = 0 := by
  rw [LennardJones.energyBranch, LennardJones.shift]
  ring

lemma lj_force_neg_near_cutoff (r2 : ℝ) (h1 : 39 / 10 ≤ r2) (h2 : r2 < 4) :
    LennardJones.force_div_r (⟨1, 1, 2⟩ : LennardJones ℝ) r2 < -(1 / 100) := by
  have hpos : (0 : ℝ) < r2 := by linarith
  have hne : r2 ≠ 0 := ne_of_gt hpos
  rw [LennardJones.force_div_r, if_neg (by rw [LennardJones.cutoff_sq]; push_neg; norm_num; linarith)]
  have hval : LennardJones.forceBranch (⟨1, 1, 2⟩ : LennardJones ℝ) r2 =
      24 * (2 - r2 ^ 3) / r2 ^ 7 := by
    rw [LennardJones.forceBranch, LennardJones.sigma_sq]
    field_simp
    ring
  rw [hval, div_lt_iff (by positivity)]
  have hu7 : r2 ^ 7 < 4 ^ 7 := by
    exact pow_lt_pow_left h2 (le_of_lt hpos) (by norm_num)
  have hu3 : (39 / 10 : ℝ) ^ 3 ≤ r2 ^ 3 := by
    exact pow_le_pow_left (by norm_num) h1 3
  nlinarith

lemma lj_energy_continuousAt (e s c : ℝ) (hc : 0 < c) :
    ContinuousAt (LennardJones.energy (⟨e, s, c⟩ : LennardJones ℝ)) (c * c) := by
  set lj : LennardJones ℝ := ⟨e, s, c⟩ with hlj
  have hc2 : lj.cutoff_sq = c * c := rfl
  have hne : c * c ≠ 0 := by positivity
  have hq : ContinuousAt (fun r2 : ℝ => lj.sigma_sq / r2) (c * c) :=
    continuousAt_const.div continuousAt_id hne
  have hbc : ContinuousAt lj.energyBranch (c * c) := by
    have : ContinuousAt (fun r2 : ℝ =>
        4 * lj.epsilon *
          ((lj.sigma_sq / r2 * (lj.sigma_sq / r2) * (lj.sigma_sq / r2)) *
            (lj.sigma_sq / r2 * (lj.sigma_sq / r2) * (lj.sigma_sq / r2)) -
            lj.sigma_sq / r2 * (lj.sigma_sq / r2) * (lj.sigma_sq / r2)) -
          lj.shift) (c * c) := by
      exact (continuousAt_const.mul
        ((((hq.mul hq).mul hq).mul ((hq.mul hq).mul hq)).sub
          ((hq.mul hq).mul hq))).sub continuousAt_const
    exact this
  have hb0 : lj.energyBranch (c * c) = 0 := by
    have := lj_energyBranch_at_cutoff lj
    rwa [hc2] at this
  have hbound : ∀ r2 : ℝ, ‖lj.energy r2‖ ≤ |lj.energyBranch r2| := by
    intro r2
    rw [LennardJones.energy]
    by_cases h : lj.cutoff_sq ≤ r2
    · rw [if_pos h]; simp
    · rw [if_neg h]; exact le_refl _
  have habs : Filter.Tendsto (fun r2 => |lj.energyBranch r2|)
      (nhds (c * c)) (nhds 0) := by
    have := (continuous_abs.continuousAt).comp hbc
    have h' : ContinuousAt (fun r2 => |lj.energyBranch r2|) (c * c) := this
    have := h'.tendsto
    rwa [show |lj.energyBranch (c * c)| = 0 by rw [hb0]; simp] at this
  have htend : Filter.Tendsto lj.energy (nhds (c * c)) (nhds 0) :=
    squeeze_zero_norm hbound habs
  have he0 : lj.energy (c * c) = 0 := by
    rw [LennardJones.energy, if_pos (le_of_eq hc2)]
  rw [ContinuousAt, he0]
  exact htend

/-- Counterexample to claim C4 as stated: for the Lennard-Jones potential
with epsilon = 1, sigma = 1, cutoff = 2 the force is NOT continuous at the
cutoff — `force_div_r` is about -0.09 just below r² = 4 (e.g. at r² = 3.99)
while it returns 0 at and beyond the cutoff. -/
theorem C4_counterexample :
    ¬ ContinuousAt (LennardJones.force_div_r (⟨1, 1, 2⟩ : LennardJones ℝ)) 4 ∧
    LennardJones.force_div_r (⟨1, 1, 2⟩ : LennardJones ℚ) (399 / 100) < -(2 / 100) ∧
    LennardJones.force_div_r (⟨1, 1, 2⟩ : LennardJones ℚ) 4 = 0 := by
  refine ⟨?_, ?_, ?_⟩
  · intro h
    have hf4 : LennardJones.force_div_r (⟨1, 1, 2⟩ : LennardJones ℝ) 4 = 0 := by
      rw [LennardJones.force_div_r, if_pos (by rw [LennardJones.cutoff_sq]; norm_num)]
    have htend := h.tendsto
    rw [hf4] at htend
    have hev : ∀ᶠ r2 in nhds (4 : ℝ),
        LennardJones.force_div_r (⟨1, 1, 2⟩ : LennardJones ℝ) r2 ∈
          Set.Ioo (-(1 / 100) : ℝ) (1 / 100) :=
      htend (Ioo_mem_nhds (by norm_num) (by norm_num))
    have hev' : ∀ᶠ r2 in nhdsWithin (4 : ℝ) (Set.Iio 4),
        LennardJones.force_div_r (⟨1, 1, 2⟩ : LennardJones ℝ) r2 ∈
          Set.Ioo (-(1 / 100) : ℝ) (1 / 100) :=
      hev.filter_mono nhdsWithin_le_nhds
    have hIoo : Set.Ioo (39 / 10 : ℝ) 4 ∈ nhdsWithin (4 : ℝ) (Set.Iio 4) :=
      Ioo_mem_nhdsWithin_Iio (by constructor <;> norm_num)
    have hmem : ∀ᶠ r2 in nhdsWithin (4 : ℝ) (Set.Iio 4),
        r2 ∈ Set.Ioo (39 / 10 : ℝ) 4 := Filter.eventually_of_mem hIoo fun _ hx => hx
    obtain ⟨r2, hr1, hr2⟩ := (hev'.and hmem).exists
    have := lj_force_neg_near_cutoff r2 (le_of_lt hr2.1) hr2.2
    have := hr1.1
    linarith
  · norm_num [LennardJones.force_div_r, LennardJones.forceBranch,
      LennardJones.cutoff_sq, LennardJones.sigma_sq]
  · rw [LennardJones.force_div_r, if_pos (by rw [LennardJones.cutoff_sq]; norm_num)]

/-- Claim C4 amended: for every Lennard-Jones potential the (shifted) energy
is continuous at the cutoff, vanishing there and beyond; but the force is
not continuous at the cutoff in general: for epsilon = sigma = 1, cutoff = 2
it stays below -1/100 on the whole approach [3.9, 4) to the cutoff while the
code returns 0 at and beyond it. -/
theorem C4_amended (e s c : ℝ) (hc : 0 < c) :
    ContinuousAt (LennardJones.energy (⟨e, s, c⟩ : LennardJones ℝ)) (c * c) ∧
    (∀ r2 : ℝ, c * c ≤ r2 → LennardJones.energy (⟨e, s, c⟩ : LennardJones ℝ) r2 = 0) ∧
    LennardJones.energyBranch (⟨e, s, c⟩ : LennardJones ℝ) (c * c) = 0 ∧
    (∀ r2 : ℝ, 39 / 10 ≤ r2 → r2 < 4 →
      LennardJones.force_div_r (⟨1, 1, 2⟩ : LennardJones ℝ) r2 < -(1 / 100)) := by
  refine ⟨lj_energy_continuousAt e s c hc, ?_, ?_, lj_force_neg_near_cutoff⟩
  · intro r2 hr
    rw [LennardJones.energy,
      if_pos (show LennardJones.cutoff_sq ⟨e, s, c⟩ ≤ r2 from hr)]
  · exact lj_energyBranch_at_cutoff _

/-- Witness for the amended C4 at epsilon = sigma = 1, cutoff = 2, with the
force evaluated just below the cutoff at r² = 3.99. -/
theorem C4_amended_witness :
    (0 : ℝ) < 2 ∧
    ContinuousAt (LennardJones.energy (⟨1, 1, 2⟩ : LennardJones ℝ)) (2 * 2) ∧
    LennardJones.force_div_r (⟨1, 1, 2⟩ : LennardJones ℝ) (399 / 100) < -(1 / 100) :=
  ⟨by norm_num, (C4_amended 1 1 2 (by norm_num)).1,
    (C4_amended 1 1 2 (by norm_num)).2.2.2 (399 / 100) (by norm_num) (by norm_num)⟩

/-- 2⁶⁴: the wraparound modulus of `std::size_t`. -/
def W64 : Nat := 2 ^ 64

/-- Shared counter state of `bounded_allocator` (`State`: byte ceiling and
tracked usage). -/
structure BoundedAllocState where
  max_bytes : Nat
  current_bytes : Nat
deriving DecidableEq

/-- Result of a successful `allocate` call: the zero-size nullptr shortcut or
a genuine pointer from the inner allocator. -/
inductive AllocPtr where
  | null : AllocPtr
  | ptr : AllocPtr
deriving DecidableEq

/-- `bounded_allocator::allocate` (shared-state version, sequential
semantics of the CAS loop): zero-size requests return nullptr untracked;
otherwise `need = n * sizeof(T)` is checked against the ceiling and either
`std::bad_alloc` is thrown (`Except.error`) or the counter advances and the
inner allocator is delegated to.  All `size_t` arithmetic wraps mod 2⁶⁴. -/
def bounded_allocator.allocate (st : BoundedAllocState) (n sizeofT : Nat) :
    Except Unit (AllocPtr × BoundedAllocState) :=
  if n = 0 then .ok (.null, st)
  else
    let need := n * sizeofT % W64
    if st.max_bytes < (st.current_bytes + need) % W64 then .error ()
    else .ok (.ptr, { st with current_bytes := (st.current_bytes + need) % W64 })

/-- `bounded_allocator::deallocate`: null pointers are ignored, otherwise the
counter drops by `n * sizeof(T)` (`fetch_sub`, wrapping mod 2⁶⁴). -/
def bounded_allocator.deallocate (st : BoundedAllocState) (isNull : Bool)
    (n sizeofT : Nat) : BoundedAllocState :=
  if isNull then st
  else { st with
          current_bytes := (st.current_bytes + (W64 - n * sizeofT % W64)) % W64 }

/-- Claim C5: in the no-overflow regime every nonzero allocation request is
checked as `current + requested ≤ ceiling` before delegation — on success the
tracked count rises by exactly the requested bytes and a real (non-null)
pointer is produced, past the ceiling the call throws — and deallocation
decrements the counter by the same amount. -/
theorem C5_bounded_allocator (st : BoundedAllocState) (n sizeofT : Nat)
    (hn : n ≠ 0) (hmax : st.max_bytes < W64)
    (hnooverflow : st.current_bytes + n * sizeofT < W64) :
    (st.current_bytes + n * sizeofT ≤ st.max_bytes →
      bounded_allocator.allocate st n sizeofT =
        .ok (.ptr, ⟨st.max_bytes, st.current_bytes + n * sizeofT⟩)) ∧
    (st.max_bytes < st.current_bytes + n * sizeofT →
      bounded_allocator.allocate st n sizeofT = .error ()) ∧
    (n * sizeofT ≤ st.current_bytes →
      bounded_allocator.deallocate st false n sizeofT =
        ⟨st.max_bytes, st.current_bytes - n * sizeofT⟩) := by
  have hneed : n * sizeofT % W64 = n * sizeofT :=
    Nat.mod_eq_of_lt (by omega)
  have hsum : (st.current_bytes + n * sizeofT % W64) % W64 =
      st.current_bytes + n * sizeofT := by
    rw [hneed]; exact Nat.mod_eq_of_lt hnooverflow
  refine ⟨?_, ?_, ?_⟩
  · intro hok
    rw [bounded_allocator.allocate, if_neg hn]
    simp only
    rw [hsum, if_neg (by omega)]
  · intro hover
    rw [bounded_allocator.allocate, if_neg hn]
    simp only
    rw [hsum, if_pos hover]
  · intro hle
    rw [bounded_allocator.deallocate, if_neg (by simp)]
    have hW : 0 < W64 := by rw [W64]; positivity
    have : (st.current_bytes + (W64 - n * sizeofT % W64)) % W64 =
        st.current_bytes - n * sizeofT := by
      rw [hneed]
      have hcur : st.current_bytes < W64 := by omega
      have hns : n * sizeofT ≤ W64 := by omega
      have hrw : st.current_bytes + (W64 - n * sizeofT) =
          (st.current_bytes - n * sizeofT) + W64 := by omega
      rw [hrw, Nat.add_mod_right, Nat.mod_eq_of_lt (by omega)]
    rw [this]

/-- Witness for C5: ceiling 100 bytes, 40 bytes in use, a request for
5 objects of 8 bytes succeeds and a later deallocation restores the count. -/
theorem C5_bounded_allocator_witness :
    ((5 : Nat) ≠ 0 ∧ (40 : Nat) + 5 * 8 ≤ 100) ∧
    bounded_allocator.allocate ⟨100, 40⟩ 5 8 = .ok (.ptr, ⟨100, 80⟩) ∧
    bounded_allocator.deallocate ⟨100, 80⟩ false 5 8 = ⟨100, 40⟩ := by
  refine ⟨⟨by norm_num, by norm_num⟩, ?_, ?_⟩
  · have h := (C5_bounded_allocator ⟨100, 40⟩ 5 8 (by norm_num)
      (by rw [W64]; norm_num) (by rw [W64]; norm_num)).1 (by norm_num)
    simpa using h
  · have h := (C5_bounded_allocator ⟨100, 80⟩ 5 8 (by norm_num)
      (by rw [W64]; norm_num) (by rw [W64]; norm_num)).2.2 (by norm_num)
    simpa using h

/-- `Particle`: position, velocity, force, mass (C++ member defaults are the
zero vectors and mass 1). -/
structure Particle (α : Type) where
  pos : Vec3 α
  vel : Vec3 α
  force : Vec3 α
  mass : α
deriving DecidableEq

/-- The default-constructed `Particle` over ℚ. -/
def pdef : Particle ℚ := ⟨⟨0, 0, 0⟩, ⟨0, 0, 0⟩, ⟨0, 0, 0⟩, 1⟩

/-- The default-constructed `Particle` over ℝ. -/
noncomputable def pdefR : Particle ℝ := ⟨⟨0, 0, 0⟩, ⟨0, 0, 0⟩, ⟨0, 0, 0⟩, 1⟩

/-- The Boltzmann constant literal `1.380649e-23` shared by
`particle.cpp` and `thermostat.cpp`. -/
def kB {α : Type} [LinearOrderedField α] : α := 1380649 / 10 ^ 29

/-- `ParticleSystem::kinetic_energy`: Σ ½·m·v². -/
def kinetic_energy {α : Type} [LinearOrderedField α] (sys : List (Particle α)) : α :=
  sys.foldl
    (fun ekin p =>
      ekin + 1 / 2 * p.mass *
        (p.vel.x * p.vel.x + p.vel.y * p.vel.y + p.vel.z * p.vel.z)) 0

/-- `ParticleSystem::temperature`: 0 for n ≤ 1, else 2·E_kin/((3n-3)·k_B). -/
def temperature {α : Type} [LinearOrderedField α] (sys : List (Particle α)) : α :=
  if sys.length ≤ 1 then 0
  else 2 * kinetic_energy sys / ((3 * (sys.length : α) - 3) * kB)

lemma getD_map_of_lt {α β : Type} (f : α → β) (l : List α) (i : Nat)
    (hi : i < l.length) (da : α) (db : β) :
    (l.map f).getD i db = f (l.getD i da) := by
  rw [List.getD_eq_getElem?_getD, List.getElem?_map,
    List.getElem?_eq_getElem hi, List.getD_eq_getElem?_getD,
    List.getElem?_eq_getElem hi]
  rfl

/-- `VelocityRescaleThermostat::apply`: skip when the current or target
temperature is non-positive or λ² ≤ 0, otherwise scale every velocity
component by λ = √λ². -/
noncomputable def VelocityRescaleThermostat.apply (target_T tau : ℝ)
    (sys : List (Particle ℝ)) (dt : ℝ) : List (Particle ℝ) :=
  let current_T := temperature sys
  if current_T ≤ 0 ∨ target_T ≤ 0 then sys
  else
    let lambda_sq := 1 + (dt / tau) * (target_T / current_T - 1)
    if lambda_sq ≤ 0 then sys
    else
      let lambda := Real.sqrt lambda_sq
      sys.map fun p =>
        { p with vel := ⟨p.vel.x * lambda, p.vel.y * lambda, p.vel.z * lambda⟩ }

/-- Claim C7: `VelocityRescaleThermostat::apply` is the identity whenever the
current or target temperature is ≤ 0 or λ² = 1 + (dt/τ)(T_target/T_current - 1)
is ≤ 0, and otherwise multiplies every velocity component of every particle by
λ = √λ² while leaving positions, forces and masses (and the particle count)
unchanged. -/
theorem C7_velocity_rescale (target_T tau dt : ℝ) (sys : List (Particle ℝ)) :
    (temperature sys ≤ 0 ∨ target_T ≤ 0 →
      VelocityRescaleThermostat.apply target_T tau sys dt = sys) ∧
    (0 < temperature sys → 0 < target_T →
      1 + (dt / tau) * (target_T / temperature sys - 1) ≤ 0 →
      VelocityRescaleThermostat.apply target_T tau sys dt = sys) ∧
    (0 < temperature sys → 0 < target_T →
      0 < 1 + (dt / tau) * (target_T / temperature sys - 1) →
      (VelocityRescaleThermostat.apply target_T tau sys dt).length = sys.length ∧
      ∀ i, i < sys.length →
        ((VelocityRescaleThermostat.apply target_T tau sys dt).getD i pdefR).pos =
          (sys.getD i pdefR).pos ∧
        ((VelocityRescaleThermostat.apply target_T tau sys dt).getD i pdefR).force =
          (sys.getD i pdefR).force ∧
        ((VelocityRescaleThermostat.apply target_T tau sys dt).getD i pdefR).mass =
          (sys.getD i pdefR).mass ∧
        ((VelocityRescaleThermostat.apply target_T tau sys dt).getD i pdefR).vel =
          ⟨(sys.getD i pdefR).vel.x *
              Real.sqrt (1 + (dt / tau) * (target_T / temperature sys - 1)),
            (sys.getD i pdefR).vel.y *
              Real.sqrt (1 + (dt / tau) * (target_T / temperature sys - 1)),
            (sys.getD i pdefR).vel.z *
              Real.sqrt (1 + (dt / tau) * (target_T / temperature sys - 1))⟩) := by
  refine ⟨?_, ?_, ?_⟩
  · intro h
    rw [VelocityRescaleThermostat.apply]
    simp only
    rw [if_pos h]
  · intro h1 h2 h3
    rw [VelocityRescaleThermostat.apply]
    simp only
    rw [if_neg (by push_neg; exact ⟨h1, h2⟩), if_pos h3]
  · intro h1 h2 h3
    have happ : VelocityRescaleThermostat.apply target_T tau sys dt =
        sys.map fun p =>
          { p with vel :=
              ⟨p.vel.x * Real.sqrt (1 + (dt / tau) * (target_T / temperature sys - 1)),
                p.vel.y * Real.sqrt (1 + (dt / tau) * (target_T / temperature sys - 1)),
                p.vel.z * Real.sqrt (1 + (dt / tau) * (target_T / temperature sys - 1))⟩ } := by
      rw [VelocityRescaleThermostat.apply]
      simp only
      rw [if_neg (by push_neg; exact ⟨h1, h2⟩), if_neg (by push_neg; exact h3)]
    rw [happ]
    refine ⟨List.length_map _ _, ?_⟩
    intro i hi
    rw [getD_map_of_lt _ sys i hi pdefR]
    exact ⟨rfl, rfl, rfl, rfl⟩

/-- Two-particle system used as the C7 scaling-branch witness: masses chosen
so that the current temperature is exactly 1 K. -/
noncomputable def thermoWitnessSys : List (Particle ℝ) :=
  [⟨⟨0, 0, 0⟩, ⟨1, 0, 0⟩, ⟨0, 0, 0⟩, 3 / 2 * kB⟩,
    ⟨⟨0, 0, 0⟩, ⟨-1, 0, 0⟩, ⟨0, 0, 0⟩, 3 / 2 * kB⟩]

lemma thermoWitnessSys_temperature : temperature thermoWitnessSys = 1 := by
  rw [temperature, thermoWitnessSys]
  norm_num [kinetic_energy, kB]

/-- Witness for C7: at target 4 K, τ = dt = 1 s on the 1 K two-particle
system, λ² = 4 and the first particle's velocity is scaled by λ = 2. -/
theorem C7_velocity_rescale_witness :
    (0 : ℝ) < temperature thermoWitnessSys ∧
    ((VelocityRescaleThermostat.apply 4 1 thermoWitnessSys 1).getD 0 pdefR).vel =
      ⟨2, 0, 0⟩ := by
  have hT : temperature thermoWitnessSys = 1 := thermoWitnessSys_temperature
  have h := (C7_velocity_rescale 4 1 1 thermoWitnessSys).2.2
    (by rw [hT]; norm_num) (by norm_num) (by rw [hT]; norm_num)
  have hi := (h.2 0 (by rw [thermoWitnessSys]; norm_num)).2.2.2
  refine ⟨by rw [hT]; norm_num, ?_⟩
  rw [hi]
  have hv : (thermoWitnessSys.getD 0 pdefR).vel = ⟨1, 0, 0⟩ := by
    rw [thermoWitnessSys]; rfl
  have hs : Real.sqrt (1 + (1 / 1) * (4 / temperature thermoWitnessSys - 1)) = 2 := by
    rw [hT]
    rw [show (1 : ℝ) + 1 / 1 * (4 / 1 - 1) = 2 ^ 2 by norm_num]
    exact Real.sqrt_sq (by norm_num)
  rw [hv, hs]
  norm_num

/-- The polymorphic `Potential` contract: `energy(r²)`, `force_div_r(r²)`,
`cutoff_squared()`. -/
structure Potential where
  energy : ℚ → ℚ
  force_div_r : ℚ → ℚ
  cutoff_squared : ℚ

/-- A `LennardJones` object viewed through the `Potential` interface. -/
def LennardJones.toPotential (lj : LennardJones ℚ) : Potential :=
  ⟨lj.energy, lj.force_div_r, lj.cutoff_sq⟩

/-- `ForceField::distance_squared`: raw Cartesian delta, replaced by the
lattice minimum-image displacement when a lattice is present; returns the
squared distance together with the displacement used. -/
def ForceField.distance_squared (p1 p2 : Particle ℚ) (lat : Option Lattice) :
    ℚ × Vec3 ℚ :=
  let dx :=
    match lat with
    | some L => L.min_image_displacement p1.pos p2.pos
    | none => p2.pos - p1.pos
  (dot dx dx, dx)

/-- In-place update of one list entry (the force accumulation target). -/
def modifyIdx {α : Type} : List α → Nat → (α → α) → List α
  | [], _, _ => []
  | a :: t, 0, f => f a :: t
  | a :: t, i + 1, f => a :: modifyIdx t i f

/-- `Particle::add_force` on the force accumulator at index `i`. -/
def addForceAt (fs : List (Vec3 ℚ)) (i : Nat) (g : Vec3 ℚ) : List (Vec3 ℚ) :=
  modifyIdx fs i (· + g)

/-- Body of the `ForceField::compute_forces` pair loop: distance test against
the potential cutoff, then energy accumulation and equal-and-opposite force
accumulation.  Positions are read from the unmodified system (the C++ loop
only ever writes forces), so the accumulator carries (epot, forces). -/
def ffPairBody (pot : Potential) (sys : List (Particle ℚ)) (lat : Option Lattice)
    (st : ℚ × List (Vec3 ℚ)) (i j : Nat) : ℚ × List (Vec3 ℚ) :=
  let pr := ForceField.distance_squared (sys.getD i pdef) (sys.getD j pdef) lat
  if pr.1 < pot.cutoff_squared then
    let e := pot.energy pr.1
    let f_div_r := pot.force_div_r pr.1
    let fx := f_div_r * pr.2.x
    let fy := f_div_r * pr.2.y
    let fz := f_div_r * pr.2.z
    (st.1 + e, addForceAt (addForceAt st.2 i ⟨fx, fy, fz⟩) j ⟨-fx, -fy, -fz⟩)
  else st

/-- `ForceField::compute_forces`: null potential returns 0 leaving forces
untouched; otherwise forces are cleared and all unordered pairs i < j are
visited once.  Result: (total potential energy, per-particle forces). -/
def ForceField.compute_forces (pot : Option Potential) (sys : List (Particle ℚ))
    (lat : Option Lattice) : ℚ × List (Vec3 ℚ) :=
  match pot with
  | none => (0, sys.map Particle.force)
  | some pot =>
    let n := sys.length
    (List.range n).foldl
      (fun st i =>
        ((List.range n).drop (i + 1)).foldl (fun st j => ffPairBody pot sys lat st i j) st)
      (0, List.replicate n 0)

/-- `NeighborList` state: cutoff parameters (with the precomputed squares
from `set_cutoff`), per-particle adjacency and recorded positions. -/
structure NeighborList where
  cutoff : ℚ
  skin : ℚ
  cutoff_sq : ℚ
  skin_half_sq : ℚ
  neighbors : List (List Nat)
  last_positions : List (Vec3 ℚ)

/-- `NeighborList` constructor followed by `set_cutoff`:
`cutoff_sq_ = (cutoff+skin)²`, `skin_half_sq_ = (skin·0.5)²`. -/
def mkNeighborList (cutoff skin : ℚ) : NeighborList :=
  { cutoff := cutoff, skin := skin,
    cutoff_sq := (cutoff + skin) * (cutoff + skin),
    skin_half_sq := skin * (1 / 2) * (skin * (1 / 2)),
    neighbors := [], last_positions := [] }

/-- `NeighborList::distance_sq` — same computation as
`ForceField::distance_squared`. -/
def NeighborList.distance_sq (p1 p2 : Particle ℚ) (lat : Option Lattice) :
    ℚ × Vec3 ℚ :=
  let dx :=
    match lat with
    | some L => L.min_image_displacement p1.pos p2.pos
    | none => p2.pos - p1.pos
  (dot dx dx, dx)

/-- `NeighborList::build`: record all current positions and, for each i, the
ascending list of j > i within `(cutoff+skin)²`. -/
def NeighborList.build (nl : NeighborList) (sys : List (Particle ℚ))
    (lat : Option Lattice) : NeighborList :=
  let n := sys.length
  { nl with
    last_positions := sys.map Particle.pos,
    neighbors := (List.range n).map fun i =>
      ((List.range n).drop (i + 1)).filter fun j =>
        (NeighborList.distance_sq (sys.getD i pdef) (sys.getD j pdef) lat).1 <
          nl.cutoff_sq }

/-- `NeighborList::needs_rebuild`: size change, or any particle displaced
(min-image when a lattice is present, via `std::round` of the fractional
delta) by more than `(skin/2)²`. -/
def NeighborList.needs_rebuild (nl : NeighborList) (sys : List (Particle ℚ))
    (lat : Option Lattice) : Bool :=
  if sys.length ≠ nl.last_positions.length then true
  else
    (List.range sys.length).any fun i =>
      let dx0 := (sys.getD i pdef).pos - nl.last_positions.getD i 0
      let dx :=
        match lat with
        | some L =>
          let frac := L.cartesian_to_fractional dx0
          let frac2 : Vec3 ℚ :=
            ⟨frac.x - roundC frac.x, frac.y - roundC frac.y, frac.z - roundC frac.z⟩
          L.fractional_to_cartesian frac2
        | none => dx0
      decide (nl.skin_half_sq < dot dx dx)

/-- `NeighborForceField`: shared potential plus the owned neighbor list. -/
structure NeighborForceField where
  potential : Option Potential
  nlist : NeighborList

/-- Body of the `NeighborForceField::compute_forces_internal` pair loop —
recomputes the true distance and applies the potential's own cutoff. -/
def nfPairBody (pot : Potential) (sys : List (Particle ℚ)) (lat : Option Lattice)
    (st : ℚ × List (Vec3 ℚ)) (i j : Nat) : ℚ × List (Vec3 ℚ) :=
  let pr := NeighborList.distance_sq (sys.getD i pdef) (sys.getD j pdef) lat
  if pr.1 < pot.cutoff_squared then
    let e := pot.energy pr.1
    let f_div_r := pot.force_div_r pr.1
    let fx := f_div_r * pr.2.x
    let fy := f_div_r * pr.2.y
    let fz := f_div_r * pr.2.z
    (st.1 + e, addForceAt (addForceAt st.2 i ⟨fx, fy, fz⟩) j ⟨-fx, -fy, -fz⟩)
  else st

/-- `NeighborForceField::compute_forces_internal`: clear forces, then visit
only the recorded neighbor pairs. -/
def NeighborForceField.compute_forces_internal (nf : NeighborForceField)
    (sys : List (Particle ℚ)) (lat : Option Lattice) : ℚ × List (Vec3 ℚ) :=
  match nf.potential with
  | none => (0, sys.map Particle.force)
  | some pot =>
    let n := sys.length
    (List.range n).foldl
      (fun st i =>
        (nf.nlist.neighbors.getD i []).foldl (fun st j => nfPairBody pot sys lat st i j) st)
      (0, List.replicate n 0)

/-- `NeighborForceField::compute_forces`: lazily rebuild, then evaluate.
Returns the (energy, forces) result together with the possibly-rebuilt
force-field state. -/
def NeighborForceField.compute_forces (nf : NeighborForceField)
    (sys : List (Particle ℚ)) (lat : Option Lattice) :
    (ℚ × List (Vec3 ℚ)) × NeighborForceField :=
  let nf2 := if nf.nlist.needs_rebuild sys lat then
    { nf with nlist := nf.nlist.build sys lat } else nf
  (nf2.compute_forces_internal sys lat, nf2)

lemma nf_ff_pairBody_eq (pot : Potential) (sys : List (Particle ℚ))
    (lat : Option Lattice) : nfPairBody pot sys lat = ffPairBody pot sys lat := rfl

lemma getD_range_map {β : Type} (f : Nat → β) (n i : Nat) (hi : i < n) (d : β) :
    (((List.range n).map f).getD i d) = f i := by
  rw [List.getD_eq_getElem?_getD, List.getElem?_map, List.getElem?_range hi]
  rfl

lemma foldl_filter_of_noop {σ : Type} (f : σ → Nat → σ) (p : Nat → Bool)
    (l : List Nat) (h : ∀ j ∈ l, p j = false → ∀ s, f s j = s) (s : σ) :
    (l.filter p).foldl f s = l.foldl f s := by
  induction l generalizing s with
  | nil => rfl
  | cons a t ih =>
    by_cases hp : p a = true
    · rw [List.filter_cons_of_pos hp, List.foldl_cons, List.foldl_cons]
      exact ih (fun j hj => h j (List.mem_cons_of_mem a hj)) (f s a)
    · have hpa : p a = false := by
        cases hb : p a
        · rfl
        · exact absurd hb hp
      rw [List.filter_cons_of_neg (by simp [hpa]), List.foldl_cons,
        h a (List.mem_cons_self a t) hpa s]
      exact ih (fun j hj => h j (List.mem_cons_of_mem a hj)) s

lemma foldl_congr_mem {σ β : Type} (f g : σ → β → σ) (l : List β)
    (h : ∀ s a, a ∈ l → f s a = g s a) (s : σ) : l.foldl f s = l.foldl g s := by
  induction l generalizing s with
  | nil => rfl
  | cons a t ih =>
    rw [List.foldl_cons, List.foldl_cons, h s a (List.mem_cons_self a t)]
    exact ih (fun s b hb => h s b (List.mem_cons_of_mem a hb)) _

lemma dot_zero_zero : dot (0 : Vec3 ℚ) (0 : Vec3 ℚ) = 0 := by
  simp [dot]

lemma roundC_zero : roundC 0 = 0 := by
  rw [roundC, if_pos le_rfl]
  norm_num

lemma cart_to_frac_zero (L : Lattice) : L.cartesian_to_fractional 0 = 0 := by
  rw [Lattice.cartesian_to_fractional]
  by_cases h : |L.volume| < machineEps
  · simp only [h, if_true]
    rfl
  · simp only [h, if_false]
    have hd : ∀ v : Vec3 ℚ, dot v (0 : Vec3 ℚ) = 0 := by
      intro v; simp [dot]
    simp only [hd, mul_zero]
    rfl

lemma frac_to_cart_zero (L : Lattice) : L.fractional_to_cartesian 0 = 0 := by
  rw [Lattice.fractional_to_cartesian]
  simp only [Vec3.zero_x, Vec3.zero_y, Vec3.zero_z, zero_mul, add_zero, zero_add]
  rfl

lemma needs_rebuild_after_build (nl : NeighborList) (sys : List (Particle ℚ))
    (lat : Option Lattice) (hsk : 0 ≤ nl.skin_half_sq) :
    (nl.build sys lat).needs_rebuild sys lat = false := by
  rw [NeighborList.needs_rebuild]
  have hlen : (nl.build sys lat).last_positions.length = sys.length := by
    rw [NeighborList.build]
    exact List.length_map _ _
  rw [if_neg (by rw [hlen]; exact fun h => h rfl)]
  rw [List.any_eq_false]
  intro i hi
  have hi' : i < sys.length := List.mem_range.mp hi
  have hlp : (nl.build sys lat).last_positions.getD i 0 = (sys.getD i pdef).pos := by
    rw [NeighborList.build]
    exact getD_map_of_lt Particle.pos sys i hi' pdef 0
  simp only [hlp]
  have hdx0 : (sys.getD i pdef).pos - (sys.getD i pdef).pos = (0 : Vec3 ℚ) := by
    rw [Vec3.sub_def]
    simp
    rfl
  rw [hdx0]
  have hsk' : (nl.build sys lat).skin_half_sq = nl.skin_half_sq := rfl
  cases lat with
  | none =>
    simp only [hsk', dot_zero_zero]
    simp only [decide_eq_true_eq]
    exact fun h => absurd h (not_lt.mpr hsk)
  | some L =>
    simp only [cart_to_frac_zero L, Vec3.zero_x, Vec3.zero_y, Vec3.zero_z,
      roundC_zero, sub_zero]
    have h0 : (⟨0, 0, 0⟩ : Vec3 ℚ) = (0 : Vec3 ℚ) := rfl
    rw [h0, frac_to_cart_zero L]
    simp only [hsk', dot_zero_zero]
    simp only [decide_eq_true_eq]
    exact fun h => absurd h (not_lt.mpr hsk)

/-- Claim C1: with the neighbor list freshly built at the current positions
(and the potential's cutoff within the list range `cutoff + skin`, as the
code guarantees by construction), `NeighborForceField::compute_forces`
returns exactly the same total potential energy and the same per-particle
forces as the brute-force `ForceField::compute_forces`, and performs no
rebuild. -/
theorem C1_neighbor_matches_brute_force (sys : List (Particle ℚ))
    (lat : Option Lattice) (pot : Potential) (cutoff skin : ℚ)
    (hcut : pot.cutoff_squared ≤ (cutoff + skin) * (cutoff + skin)) :
    NeighborForceField.compute_forces
        ⟨some pot, (mkNeighborList cutoff skin).build sys lat⟩ sys lat =
      (ForceField.compute_forces (some pot) sys lat,
        ⟨some pot, (mkNeighborList cutoff skin).build sys lat⟩) := by
  have hsk : 0 ≤ (mkNeighborList cutoff skin).skin_half_sq :=
    mul_self_nonneg (skin * (1 / 2))
  have hsk2 : 0 ≤ ((mkNeighborList cutoff skin).build sys lat).skin_half_sq := hsk
  have hnr := needs_rebuild_after_build (mkNeighborList cutoff skin) sys lat hsk
  rw [NeighborForceField.compute_forces]
  simp only [hnr, Bool.false_eq_true, if_false]
  have hmain : NeighborForceField.compute_forces_internal
      ⟨some pot, (mkNeighborList cutoff skin).build sys lat⟩ sys lat =
      ForceField.compute_forces (some pot) sys lat := by
    rw [NeighborForceField.compute_forces_internal, ForceField.compute_forces]
    simp only
    apply foldl_congr_mem
    intro s i hi
    have hi' : i < sys.length := List.mem_range.mp hi
    have hnb : ((mkNeighborList cutoff skin).build sys lat).neighbors.getD i [] =
        ((List.range sys.length).drop (i + 1)).filter fun j =>
          (NeighborList.distance_sq (sys.getD i pdef) (sys.getD j pdef) lat).1 <
            (mkNeighborList cutoff skin).cutoff_sq := by
      rw [NeighborList.build]
      exact getD_range_map _ _ i hi' []
    rw [hnb, nf_ff_pairBody_eq]
    apply foldl_filter_of_noop
    intro j _ hj s'
    rw [ffPairBody]
    have hjlt : ¬ (NeighborList.distance_sq (sys.getD i pdef) (sys.getD j pdef) lat).1 <
        (mkNeighborList cutoff skin).cutoff_sq := by
      simpa using hj
    have hcc : (mkNeighborList cutoff skin).cutoff_sq = (cutoff + skin) * (cutoff + skin) := rfl
    rw [hcc] at hjlt
    have hge : (cutoff + skin) * (cutoff + skin) ≤
        (ForceField.distance_squared (sys.getD i pdef) (sys.getD j pdef) lat).1 :=
      not_lt.mp hjlt
    rw [if_neg (not_lt.mpr (le_trans hcut hge))]
  rw [hmain]

/-- Witness for C1: two unit-mass particles one unit apart, no lattice,
Lennard-Jones with epsilon = sigma = 1, cutoff 2, skin 1 (so the potential
cutoff 4 is within the list range 9). -/
theorem C1_neighbor_matches_brute_force_witness :
    (LennardJones.toPotential ⟨1, 1, 2⟩).cutoff_squared ≤
      ((2 : ℚ) + 1) * (2 + 1) ∧
    NeighborForceField.compute_forces
        ⟨some (LennardJones.toPotential ⟨1, 1, 2⟩),
          (mkNeighborList 2 1).build
            [⟨⟨0, 0, 0⟩, ⟨0, 0, 0⟩, ⟨0, 0, 0⟩, 1⟩, ⟨⟨1, 0, 0⟩, ⟨0, 0, 0⟩, ⟨0, 0, 0⟩, 1⟩]
            none⟩
        [⟨⟨0, 0, 0⟩, ⟨0, 0, 0⟩, ⟨0, 0, 0⟩, 1⟩, ⟨⟨1, 0, 0⟩, ⟨0, 0, 0⟩, ⟨0, 0, 0⟩, 1⟩] none =
      (ForceField.compute_forces (some (LennardJones.toPotential ⟨1, 1, 2⟩))
          [⟨⟨0, 0, 0⟩, ⟨0, 0, 0⟩, ⟨0, 0, 0⟩, 1⟩, ⟨⟨1, 0, 0⟩, ⟨0, 0, 0⟩, ⟨0, 0, 0⟩, 1⟩] none,
        ⟨some (LennardJones.toPotential ⟨1, 1, 2⟩),
          (mkNeighborList 2 1).build
            [⟨⟨0, 0, 0⟩, ⟨0, 0, 0⟩, ⟨0, 0, 0⟩, 1⟩, ⟨⟨1, 0, 0⟩, ⟨0, 0, 0⟩, ⟨0, 0, 0⟩, 1⟩]
            none⟩) :=
  ⟨by norm_num [LennardJones.toPotential, LennardJones.cutoff_sq],
    C1_neighbor_matches_brute_force _ none _ 2 1
      (by norm_num [LennardJones.toPotential, LennardJones.cutoff_sq])⟩

/-- `SimulationParams` with the C++ field defaults (`simulation.hpp`). -/
structure SimulationParams where
  dt : ℚ := 1 / 10 ^ 15
  dx : ℚ := 1 / 10 ^ 9
  end_time : ℚ := 0
  max_steps : Nat := 10000000
  temperature : ℚ := 300
  cutoff : ℚ := 1 / 10 ^ 9
  use_neighbor_list : Bool := true
  neighbor_skin : ℚ := 2 / 10 ^ 10

/-- `SimulationParams::validate` (the `std::isfinite` arms are identically
true over ℚ). -/
def SimulationParams.validate (p : SimulationParams) : Option String :=
  if p.dt ≤ 0 then some "Time step dt must be positive and finite."
  else if p.end_time < 0 then some "End time must be non-negative and finite."
  else if p.max_steps = 0 then some "Maximum steps must be greater than 0."
  else if p.temperature < 0 then some "Temperature must be non-negative and finite."
  else if p.cutoff ≤ 0 then some "Force cutoff must be positive and finite."
  else if p.neighbor_skin < 0 then some "Neighbor skin must be non-negative and finite."
  else if 0 < p.end_time ∧ p.end_time < p.dt then
    some "Time step cannot be greater than end time."
  else none

/-- `VelocityVerlet` integrator: `dt_` and the precomputed `half_dt_`. -/
structure VelocityVerlet where
  dt : ℚ
  half_dt : ℚ

/-- `VelocityVerlet` constructor: `half_dt_(0.5 * dt)`. -/
def mkVelocityVerlet (dt : ℚ) : VelocityVerlet := ⟨dt, 1 / 2 * dt⟩

/-- `VelocityVerlet::step1`: half-kick the velocity, then drift the position
with the half-updated velocity. -/
def VelocityVerlet.step1 (vv : VelocityVerlet) (sys : List (Particle ℚ)) :
    List (Particle ℚ) :=
  sys.map fun p =>
    let ax := p.force.x / p.mass
    let ay := p.force.y / p.mass
    let az := p.force.z / p.mass
    let vel2 : Vec3 ℚ :=
      ⟨p.vel.x + vv.half_dt * ax, p.vel.y + vv.half_dt * ay, p.vel.z + vv.half_dt * az⟩
    let pos2 : Vec3 ℚ :=
      ⟨p.pos.x + vv.dt * vel2.x, p.pos.y + vv.dt * vel2.y, p.pos.z + vv.dt * vel2.z⟩
    { p with vel := vel2, pos := pos2 }

/-- `VelocityVerlet::step2`: second half-kick with the new forces. -/
def VelocityVerlet.step2 (vv : VelocityVerlet) (sys : List (Particle ℚ)) :
    List (Particle ℚ) :=
  sys.map fun p =>
    { p with vel :=
        ⟨p.vel.x + vv.half_dt * (p.force.x / p.mass),
          p.vel.y + vv.half_dt * (p.force.y / p.mass),
          p.vel.z + vv.half_dt * (p.force.z / p.mass)⟩ }

/-- `ParticleSystem::apply_pbc`: wrap every position into the cell. -/
def apply_pbc (L : Lattice) (sys : List (Particle ℚ)) : List (Particle ℚ) :=
  sys.map fun p => { p with pos := L.wrap_cartesian p.pos }

/-- `ParticleSystem::zero_com_velocity`: subtract the mass-weighted mean
velocity (left unscaled when the total mass is not positive). -/
def zero_com_velocity (sys : List (Particle ℚ)) : List (Particle ℚ) :=
  let acc := sys.foldl
    (fun (a : Vec3 ℚ × ℚ) p =>
      (⟨a.1.x + p.mass * p.vel.x, a.1.y + p.mass * p.vel.y, a.1.z + p.mass * p.vel.z⟩,
        a.2 + p.mass))
    (0, 0)
  let com_vel : Vec3 ℚ :=
    if 0 < acc.2 then ⟨acc.1.x / acc.2, acc.1.y / acc.2, acc.1.z / acc.2⟩
    else acc.1
  sys.map fun p =>
    { p with vel := ⟨p.vel.x - com_vel.x, p.vel.y - com_vel.y, p.vel.z - com_vel.z⟩ }

/-- `ParticleSystem::clear_forces`. -/
def clear_forces (sys : List (Particle ℚ)) : List (Particle ℚ) :=
  sys.map fun p => { p with force := ⟨0, 0, 0⟩ }

/-- Write back the force accumulator into the particle vector. -/
def setForces (sys : List (Particle ℚ)) (fs : List (Vec3 ℚ)) : List (Particle ℚ) :=
  List.zipWith (fun p f => { p with force := f }) sys fs

/-- MD-mode `Simulation` state.  The step callback (which receives a const
reference and cannot mutate the simulation) is omitted; the integrator slot
is always populated with `VelocityVerlet(params.dt)` — in C++ it is null
exactly on the invalid path, where stepping is blocked before any use.
The thermostat slot holds the virtual `Thermostat::apply` as a function. -/
structure MdSim where
  params : SimulationParams
  time : ℚ
  step_count : Nat
  valid : Bool
  error_msg : String
  system : List (Particle ℚ)
  lattice : Lattice
  integrator : VelocityVerlet
  force_field : Option (Option Potential)
  neighbor_force_field : Option NeighborForceField
  thermostat : Option (List (Particle ℚ) → ℚ → List (Particle ℚ))
  last_epot : ℚ

/-- `Simulation::set_potential`: neighbor-list or brute-force force field
depending on `use_neighbor_list`. -/
def MdSim.set_potential (sim : MdSim) (pot : Potential) : MdSim :=
  if sim.params.use_neighbor_list then
    { sim with
        neighbor_force_field :=
          some ⟨some pot, mkNeighborList sim.params.cutoff sim.params.neighbor_skin⟩,
        force_field := none }
  else
    { sim with force_field := some (some pot), neighbor_force_field := none }

/-- The MD `Simulation` constructor: validate, then install the integrator
and (when given) the potential. -/
def mkSimulation (p : SimulationParams) (pot : Option Potential) : MdSim :=
  let base : MdSim :=
    { params := p, time := 0, step_count := 0, valid := false, error_msg := "",
      system := [], lattice := {}, integrator := mkVelocityVerlet p.dt,
      force_field := none, neighbor_force_field := none, thermostat := none,
      last_epot := 0 }
  match p.validate with
  | some e => { base with error_msg := e }
  | none =>
    match pot with
    | some pt => { base.set_potential pt with valid := true }
    | none => { base with valid := true }

/-- `Simulation::set_lattice` — no validation is performed. -/
def MdSim.set_lattice (sim : MdSim) (lat : Lattice) : MdSim :=
  { sim with lattice := lat }

/-- `Simulation::has_lattice`: `lattice_.volume() != 0.0`. -/
def MdSim.has_lattice (sim : MdSim) : Bool :=
  decide (sim.lattice.volume ≠ 0)

/-- `Simulation::compute_forces`: neighbor force field first, then brute
force, else clear forces; records the potential energy. -/
def MdSim.compute_forces (sim : MdSim) : MdSim :=
  let lat : Option Lattice := if sim.has_lattice then some sim.lattice else none
  match sim.neighbor_force_field with
  | some nf =>
    let res := nf.compute_forces sim.system lat
    { sim with
        system := setForces sim.system res.1.2
        last_epot := res.1.1
        neighbor_force_field := some res.2 }
  | none =>
    match sim.force_field with
    | some pt =>
      let res := ForceField.compute_forces pt sim.system lat
      { sim with system := setForces sim.system res.2, last_epot := res.1 }
    | none =>
      { sim with system := clear_forces sim.system, last_epot := 0 }

/-- `Simulation::finished` in MD mode: invalid, or step budget exhausted, or
(end_time > 0 and time ≥ end_time). -/
def MdSim.finished (sim : MdSim) : Bool :=
  if ¬sim.valid then true
  else if sim.params.max_steps ≤ sim.step_count then true
  else if 0 < sim.params.end_time ∧ sim.params.end_time ≤ sim.time then true
  else false

/-- `Simulation::step` in MD mode.  The `std::isfinite(time_)` failure arm
cannot fire over ℚ. -/
def MdSim.step (sim : MdSim) : Bool × MdSim :=
  if ¬sim.valid then
    (false, { sim with error_msg := "Simulation not properly initialized" })
  else if sim.finished then (false, sim)
  else if sim.params.max_steps ≤ sim.step_count then
    (false, { sim with error_msg := "Maximum step count reached" })
  else
    let sys1 := sim.integrator.step1 sim.system
    let sys2 := if sim.has_lattice then apply_pbc sim.lattice sys1 else sys1
    let sim2 := MdSim.compute_forces { sim with system := sys2 }
    let sys3 := sim2.integrator.step2 sim2.system
    let sys4 :=
      match sim2.thermostat with
      | some th => th sys3 sim2.params.dt
      | none => sys3
    let sim3 := { sim2 with
                  system := sys4
                  time := sim2.time + sim2.params.dt
                  step_count := sim2.step_count + 1 }
    if 0 < sim3.params.end_time then
      if sim3.params.end_time - sim3.params.dt * (1 / 2) ≤ sim3.time then
        (false, { sim3 with time := sim3.params.end_time })
      else (true, sim3)
    else (true, sim3)

/-- `Simulation::initialize` (C++ member `initialize`): zero the
center-of-mass velocity and compute the initial forces; no-op on an empty
system. -/
def MdSim.setup (sim : MdSim) : MdSim :=
  if sim.system.isEmpty then sim
  else MdSim.compute_forces { sim with system := zero_com_velocity sim.system }

/-- The `while (step()) {}` loop of `Simulation::run`, with explicit fuel;
`max_steps + 1` fuel always suffices because each successful step increments
`step_count` and `finished()` stops the loop at `max_steps`. -/
def runLoop : Nat → MdSim → MdSim
  | 0, sim => sim
  | fuel + 1, sim =>
    let r := sim.step
    if r.1 then runLoop fuel r.2 else r.2

/-- `Simulation::run` in MD mode. -/
def MdSim.run (sim : MdSim) : MdSim :=
  runLoop (sim.params.max_steps + 1) sim.setup

/-- The tagged union of simulation modes: MD, or a heat-diffusion model
behind the `ISimModel` interface. -/
inductive SimState where
  | md : MdSim → SimState
  | heat : HeatDiffusionModel → SimState

/-- `Simulation::finished`: delegates verbatim to the model when one is
set, else uses the MD rule. -/
def SimState.finished : SimState → Bool
  | .md s => s.finished
  | .heat m => m.finished

/-- A valid 1D heat parameter record with `end_time = 0` (allowed by
`validate()`, which only requires `end_time ≥ 0`). -/
def heatParamsC2 : HeatDiffusionParams :=
  { alpha := 1, dx := 1, dt := 1 / 2, end_time := 0, max_steps := 5, n_cells := 3 }

/-- Counterexample to claim C2 as stated: the freshly constructed valid heat
model with `end_time = 0` has `time = 0 ≥ end_time`, so the model (and hence
the delegating `Simulation::finished`) reports finished — although the
claimed unified rule (invalid, or step budget exhausted, or `end_time > 0`
and `time ≥ end_time`) says not finished.  `HeatDiffusionModel::finished`
has no `end_time > 0` guard. -/
theorem C2_counterexample :
    (mkHeatModel heatParamsC2).valid = true ∧
    (mkHeatModel heatParamsC2).step_count <
      (mkHeatModel heatParamsC2).params.max_steps ∧
    ¬(0 < (mkHeatModel heatParamsC2).params.end_time ∧
      (mkHeatModel heatParamsC2).params.end_time ≤ (mkHeatModel heatParamsC2).time) ∧
    SimState.finished (.heat (mkHeatModel heatParamsC2)) = true := by
  have hv : heatParamsC2.validate = none := by
    rw [HeatDiffusionParams.validate]
    norm_num [heatParamsC2, HeatDiffusionParams.stability_limit]
  have hm : mkHeatModel heatParamsC2 =
      { params := heatParamsC2, n := 3, T := initTemps 3, T_next := initTemps 3,
        time := 0, step_count := 0, error_msg := "", valid := true } := by
    rw [mkHeatModel, hv]
    rfl
  refine ⟨by rw [hm], by rw [hm]; norm_num [heatParamsC2], by rw [hm]; norm_num [heatParamsC2], ?_⟩
  show (mkHeatModel heatParamsC2).finished = true
  rw [hm, HeatDiffusionModel.finished]
  norm_num [heatParamsC2]

/-- Claim C2 amended: in MD mode `finished()` matches the stated rule exactly
(invalid, or step_count ≥ max_steps, or end_time > 0 and time ≥ end_time);
in heat-diffusion mode the `Simulation` delegates verbatim to the model, but
the model's own rule omits the `end_time > 0` guard: it is invalid, or
step_count ≥ max_steps, or time ≥ end_time. -/
theorem C2_amended (s : MdSim) (m : HeatDiffusionModel) :
    (SimState.finished (.md s) = s.finished) ∧
    (s.finished = true ↔
      (¬s.valid = true ∨ s.params.max_steps ≤ s.step_count ∨
        (0 < s.params.end_time ∧ s.params.end_time ≤ s.time))) ∧
    (SimState.finished (.heat m) = m.finished) ∧
    (m.finished = true ↔
      (¬m.valid = true ∨ m.params.max_steps ≤ m.step_count ∨
        m.params.end_time ≤ m.time)) := by
  refine ⟨rfl, ?_, rfl, ?_⟩
  · rw [MdSim.finished]
    by_cases h1 : ¬s.valid = true
    · simp [h1]
    · rw [if_neg h1]
      by_cases h2 : s.params.max_steps ≤ s.step_count
      · simp [h1, h2]
      · rw [if_neg h2]
        by_cases h3 : 0 < s.params.end_time ∧ s.params.end_time ≤ s.time
        · simp [h1, h2, h3]
        · simp [h1, h2, h3]
  · rw [HeatDiffusionModel.finished]
    by_cases h1 : ¬m.valid = true
    · simp [h1]
    · rw [if_neg h1]
      by_cases h2 : m.params.max_steps ≤ m.step_count
      · simp [h1, h2]
      · rw [if_neg h2]
        by_cases h3 : m.params.end_time ≤ m.time
        · simp [h1, h2, h3]
        · simp [h1, h2, h3]

lemma compute_forces_params (s : MdSim) : (s.compute_forces).params = s.params := by
  rw [MdSim.compute_forces]
  cases s.neighbor_force_field with
  | some nf => rfl
  | none =>
    cases s.force_field with
    | some pt => rfl
    | none => rfl

lemma compute_forces_time (s : MdSim) : (s.compute_forces).time = s.time := by
  rw [MdSim.compute_forces]
  cases s.neighbor_force_field with
  | some nf => rfl
  | none =>
    cases s.force_field with
    | some pt => rfl
    | none => rfl

lemma compute_forces_step_count (s : MdSim) :
    (s.compute_forces).step_count = s.step_count := by
  rw [MdSim.compute_forces]
  cases s.neighbor_force_field with
  | some nf => rfl
  | none =>
    cases s.force_field with
    | some pt => rfl
    | none => rfl

lemma compute_forces_valid (s : MdSim) : (s.compute_forces).valid = s.valid := by
  rw [MdSim.compute_forces]
  cases s.neighbor_force_field with
  | some nf => rfl
  | none =>
    cases s.force_field with
    | some pt => rfl
    | none => rfl

lemma compute_forces_thermostat (s : MdSim) :
    (s.compute_forces).thermostat = s.thermostat := by
  rw [MdSim.compute_forces]
  cases s.neighbor_force_field with
  | some nf => rfl
  | none =>
    cases s.force_field with
    | some pt => rfl
    | none => rfl

/-- `finished()` as a function of the parameter record and the
(time, step_count, valid) fields only. -/
def finishedClock (p : SimulationParams) (t : ℚ) (k : Nat) (v : Bool) : Bool :=
  if ¬v then true
  else if p.max_steps ≤ k then true
  else if 0 < p.end_time ∧ p.end_time ≤ t then true
  else false

lemma finished_eq_clock (s : MdSim) :
    MdSim.finished s = finishedClock s.params s.time s.step_count s.valid := rfl

/-- The action of `Simulation::step` on (continue?, time, step_count, valid):
none of it reads the particle state, the potential or the thermostat. -/
def clockStep (p : SimulationParams) (t : ℚ) (k : Nat) (v : Bool) :
    Bool × ℚ × Nat × Bool :=
  if ¬v then (false, t, k, v)
  else if finishedClock p t k v then (false, t, k, v)
  else if p.max_steps ≤ k then (false, t, k, v)
  else
    let t2 := t + p.dt
    if 0 < p.end_time then
      if p.end_time - p.dt * (1 / 2) ≤ t2 then (false, p.end_time, k + 1, v)
      else (true, t2, k + 1, v)
    else (true, t2, k + 1, v)

lemma step_clock (s : MdSim) :
    ((s.step).1, (s.step).2.time, (s.step).2.step_count, (s.step).2.valid) =
      clockStep s.params s.time s.step_count s.valid ∧
    (s.step).2.params = s.params := by
  constructor
  · simp only [MdSim.step, clockStep, finished_eq_clock, compute_forces_params,
      compute_forces_time, compute_forces_step_count, compute_forces_valid]
    split_ifs <;> rfl
  · simp only [MdSim.step]
    split_ifs <;> simp [compute_forces_params]

/-- The run loop on the clock projection alone. -/
def runClockLoop : Nat → SimulationParams → ℚ → Nat → Bool → ℚ × Nat × Bool
  | 0, _, t, k, v => (t, k, v)
  | fuel + 1, p, t, k, v =>
    let r := clockStep p t k v
    if r.1 then runClockLoop fuel p r.2.1 r.2.2.1 r.2.2.2 else r.2

lemma runLoop_clock (fuel : Nat) (s : MdSim) :
    ((runLoop fuel s).time, (runLoop fuel s).step_count, (runLoop fuel s).valid) =
      runClockLoop fuel s.params s.time s.step_count s.valid := by
  induction fuel generalizing s with
  | zero => rfl
  | succ fuel ih =>
    simp only [runLoop, runClockLoop]
    obtain ⟨hc, hp⟩ := step_clock s
    have hb : (s.step).1 = (clockStep s.params s.time s.step_count s.valid).1 :=
      congrArg Prod.fst hc
    have h2 : ((s.step).2.time, (s.step).2.step_count, (s.step).2.valid) =
        (clockStep s.params s.time s.step_count s.valid).2 :=
      congrArg Prod.snd hc
    have ht : (s.step).2.time =
        (clockStep s.params s.time s.step_count s.valid).2.1 :=
      congrArg Prod.fst h2
    have hk : (s.step).2.step_count =
        (clockStep s.params s.time s.step_count s.valid).2.2.1 :=
      congrArg (fun x => x.2.1) h2
    have hv : (s.step).2.valid =
        (clockStep s.params s.time s.step_count s.valid).2.2.2 :=
      congrArg (fun x => x.2.2) h2
    by_cases hstep : (s.step).1 = true
    · rw [if_pos hstep, if_pos (hb ▸ hstep), ih (s.step).2, hp, ht, hk, hv]
    · rw [if_neg hstep, if_neg (hb ▸ hstep)]
      exact h2

lemma setup_clock (s : MdSim) :
    (s.setup).time = s.time ∧ (s.setup).step_count = s.step_count ∧
    (s.setup).valid = s.valid ∧ (s.setup).params = s.params := by
  rw [MdSim.setup]
  by_cases h : s.system.isEmpty = true
  · rw [if_pos h]
    exact ⟨rfl, rfl, rfl, rfl⟩
  · rw [if_neg h]
    exact ⟨compute_forces_time _, compute_forces_step_count _,
      compute_forces_valid _, compute_forces_params _⟩

lemma mkSimulation_params (p : SimulationParams) (pot : Option Potential) :
    (mkSimulation p pot).params = p := by
  rcases hval : p.validate with _ | e
  · rcases pot with _ | pt
    · simp only [mkSimulation, hval]
    · simp only [mkSimulation, hval, MdSim.set_potential]
      split_ifs <;> rfl
  · simp only [mkSimulation, hval]

lemma mkSimulation_clock (p : SimulationParams) (pot : Option Potential) :
    (mkSimulation p pot).time = 0 ∧ (mkSimulation p pot).step_count = 0 ∧
    (mkSimulation p pot).valid = (p.validate).isNone := by
  rcases hval : p.validate with _ | e
  · rcases pot with _ | pt
    · simp only [mkSimulation, hval]
      simp
    · simp only [mkSimulation, hval, MdSim.set_potential]
      split_ifs <;> simp
  · simp only [mkSimulation, hval]
    simp

/-- Claim C8: two `Simulation` instances constructed from identical parameter
records — however their particle systems are seeded and whatever potential or
thermostat is installed — and run to completion report exactly equal
`step_count()` and `time()` (so in particular equal within 1e-20): the
time/step/validity evolution never reads the particle state. -/
theorem C8_determinism (p : SimulationParams) (sysA sysB : List (Particle ℚ))
    (potA potB : Option Potential)
    (thA thB : Option (List (Particle ℚ) → ℚ → List (Particle ℚ))) :
    (MdSim.run { mkSimulation p potA with system := sysA, thermostat := thA }).step_count =
      (MdSim.run { mkSimulation p potB with system := sysB, thermostat := thB }).step_count ∧
    (MdSim.run { mkSimulation p potA with system := sysA, thermostat := thA }).time =
      (MdSim.run { mkSimulation p potB with system := sysB, thermostat := thB }).time := by
  have key : ∀ (sys : List (Particle ℚ)) (pot : Option Potential)
      (th : Option (List (Particle ℚ) → ℚ → List (Particle ℚ))),
      ((MdSim.run { mkSimulation p pot with system := sys, thermostat := th }).time,
        (MdSim.run { mkSimulation p pot with system := sys, thermostat := th }).step_count,
        (MdSim.run { mkSimulation p pot with system := sys, thermostat := th }).valid) =
        runClockLoop (p.max_steps + 1) p 0 0 (p.validate).isNone := by
    intro sys pot th
    set a : MdSim := { mkSimulation p pot with system := sys, thermostat := th } with ha
    have hap : a.params = p := mkSimulation_params p pot
    have hat : a.time = 0 := (mkSimulation_clock p pot).1
    have hak : a.step_count = 0 := (mkSimulation_clock p pot).2.1
    have hav : a.valid = (p.validate).isNone := (mkSimulation_clock p pot).2.2
    obtain ⟨hst, hsk, hsv, hsp⟩ := setup_clock a
    rw [MdSim.run, hap]
    have := runLoop_clock (a.params.max_steps + 1) a.setup
    rw [hst, hsk, hsv, hsp, hap, hat, hak, hav] at this
    exact this
  have hA := key sysA potA thA
  have hB := key sysB potB thB
  have h := hA.trans hB.symm
  exact ⟨congrArg (fun x => x.2.1) h, congrArg Prod.fst h⟩

lemma modifyIdx_length {α : Type} (l : List α) (i : Nat) (f : α → α) :
    (modifyIdx l i f).length = l.length := by
  induction l generalizing i with
  | nil => rfl
  | cons a t ih =>
    cases i with
    | zero => rfl
    | succ i => simp only [modifyIdx, List.length_cons, ih]

lemma addForceAt_length (fs : List (Vec3 ℚ)) (i : Nat) (g : Vec3 ℚ) :
    (addForceAt fs i g).length = fs.length := modifyIdx_length fs i _

lemma ffPairBody_forces_length (pot : Potential) (sys : List (Particle ℚ))
    (lat : Option Lattice) (st : ℚ × List (Vec3 ℚ)) (i j : Nat) :
    ((ffPairBody pot sys lat st i j).2).length = st.2.length := by
  rw [ffPairBody]
  split_ifs
  · simp only [addForceAt_length]
  · rfl

lemma foldl_forces_length {β : Type} (f : (ℚ × List (Vec3 ℚ)) → β → ℚ × List (Vec3 ℚ))
    (h : ∀ st b, ((f st b).2).length = st.2.length) (l : List β)
    (st : ℚ × List (Vec3 ℚ)) : ((l.foldl f st).2).length = st.2.length := by
  induction l generalizing st with
  | nil => rfl
  | cons a t ih => rw [List.foldl_cons, ih, h]

lemma ff_compute_forces_length (pt : Option Potential) (sys : List (Particle ℚ))
    (lat : Option Lattice) :
    ((ForceField.compute_forces pt sys lat).2).length = sys.length := by
  cases pt with
  | none => exact List.length_map _ _
  | some pot =>
    rw [ForceField.compute_forces]
    rw [foldl_forces_length _
      (fun st i => foldl_forces_length _ (fun st j => ffPairBody_forces_length pot sys lat st i j) _ st)]
    exact List.length_replicate _ _

lemma nf_internal_forces_length (nf : NeighborForceField) (sys : List (Particle ℚ))
    (lat : Option Lattice) :
    ((nf.compute_forces_internal sys lat).2).length = sys.length := by
  cases hpt : nf.potential with
  | none =>
    rw [NeighborForceField.compute_forces_internal, hpt]
    exact List.length_map _ _
  | some pot =>
    simp only [NeighborForceField.compute_forces_internal, hpt, nf_ff_pairBody_eq]
    rw [foldl_forces_length _
      (fun st i => foldl_forces_length _ (fun st j => ffPairBody_forces_length pot sys lat st i j) _ st)]
    exact List.length_replicate _ _

lemma nf_compute_forces_length (nf : NeighborForceField) (sys : List (Particle ℚ))
    (lat : Option Lattice) :
    (((nf.compute_forces sys lat).1).2).length = sys.length := by
  rw [NeighborForceField.compute_forces]
  exact nf_internal_forces_length _ sys lat

lemma setForces_map_pos (sys : List (Particle ℚ)) (fs : List (Vec3 ℚ))
    (h : fs.length = sys.length) :
    (setForces sys fs).map Particle.pos = sys.map Particle.pos := by
  induction sys generalizing fs with
  | nil => rfl
  | cons p t ih =>
    cases fs with
    | nil => exact absurd h (by simp)
    | cons f ft =>
      simp only [setForces, List.zipWith_cons_cons, List.map_cons]
      exact congrArg (List.cons p.pos) (ih ft (by simpa using h))

lemma clear_forces_map_pos (sys : List (Particle ℚ)) :
    (clear_forces sys).map Particle.pos = sys.map Particle.pos := by
  rw [clear_forces, List.map_map]
  rfl

lemma step2_map_pos (vv : VelocityVerlet) (sys : List (Particle ℚ)) :
    (vv.step2 sys).map Particle.pos = sys.map Particle.pos := by
  rw [VelocityVerlet.step2, List.map_map]
  rfl

lemma compute_forces_map_pos (s : MdSim) :
    (s.compute_forces).system.map Particle.pos = s.system.map Particle.pos := by
  rw [MdSim.compute_forces]
  cases s.neighbor_force_field with
  | some nf =>
    exact setForces_map_pos _ _ (nf_compute_forces_length nf s.system _)
  | none =>
    cases s.force_field with
    | some pt =>
      exact setForces_map_pos _ _ (ff_compute_forces_length pt s.system _)
    | none => exact clear_forces_map_pos _

lemma mkSimulation_lattice (p : SimulationParams) (pot : Option Potential) :
    (mkSimulation p pot).lattice = ({} : Lattice) := by
  rcases hval : p.validate with _ | e
  · rcases pot with _ | pt
    · simp only [mkSimulation, hval]
    · simp only [mkSimulation, hval, MdSim.set_potential]
      split_ifs <;> rfl
  · simp only [mkSimulation, hval]

lemma md_finished_false_no_budget (s : MdSim) (hv : s.valid = true)
    (hf : s.finished = false) : ¬s.params.max_steps ≤ s.step_count := by
  intro hcon
  rw [MdSim.finished, if_neg (by simp [hv]), if_pos hcon] at hf
  exact Bool.noConfusion hf

/-- A degenerate lattice with linearly dependent a1 = a2, hence volume 0 —
accepted unchecked by `Simulation::set_lattice`. -/
def degLattice : Lattice := { a1 := ⟨1, 0, 0⟩, a2 := ⟨1, 0, 0⟩, a3 := ⟨0, 0, 1⟩ }

lemma defaultLattice_volume : ({} : Lattice).volume = 1 := by
  rw [Lattice.volume]
  norm_num [dot, cross]

lemma degLattice_volume : degLattice.volume = 0 := by
  rw [Lattice.volume]
  norm_num [degLattice, dot, cross]

lemma simParams_default_validate : ({} : SimulationParams).validate = none := by
  rw [SimulationParams.validate]
  norm_num

lemma mkSimulation_default : mkSimulation {} none =
    { params := {}, time := 0, step_count := 0, valid := true, error_msg := "",
      system := [], lattice := {}, integrator := mkVelocityVerlet (1 / 10 ^ 15),
      force_field := none, neighbor_force_field := none, thermostat := none,
      last_epot := 0 } := by
  simp only [mkSimulation, simParams_default_validate]

/-- A simulation reached purely through the public interface: the MD
constructor with default parameters, `set_lattice` with the degenerate
basis, and one particle seeded through `system()` at x = 2.5. -/
def simC9 : MdSim :=
  { (mkSimulation {} none).set_lattice degLattice with
      system := [⟨⟨5 / 2, 0, 0⟩, ⟨0, 0, 0⟩, ⟨0, 0, 0⟩, 1⟩] }

/-- Counterexample to claim C9 as stated: a non-periodic MD state IS
reachable through the public interface — `set_lattice` performs no
validation, so a zero-volume basis turns `has_lattice()` off and `step()`
then applies no periodic wrapping: the particle stays at x = 2.5 outside
every cell. -/
theorem C9_counterexample :
    simC9.valid = true ∧
    MdSim.has_lattice simC9 = false ∧
    (simC9.step).2.system.map Particle.pos = [⟨5 / 2, 0, 0⟩] := by
  have hsim : simC9 =
      { params := {}, time := 0, step_count := 0, valid := true, error_msg := "",
        system := [⟨⟨5 / 2, 0, 0⟩, ⟨0, 0, 0⟩, ⟨0, 0, 0⟩, 1⟩], lattice := degLattice,
        integrator := mkVelocityVerlet (1 / 10 ^ 15), force_field := none,
        neighbor_force_field := none, thermostat := none, last_epot := 0 } := by
    rw [simC9, MdSim.set_lattice, mkSimulation_default]
  refine ⟨by rw [hsim], ?_, ?_⟩
  · simp [MdSim.has_lattice, hsim, degLattice_volume]
  · rw [hsim]
    norm_num [MdSim.step, MdSim.finished, MdSim.has_lattice, degLattice_volume,
      MdSim.compute_forces, VelocityVerlet.step1, VelocityVerlet.step2,
      clear_forces, mkVelocityVerlet, apply_pbc]

/-- Claim C9 amended: the default-constructed MD simulation has the unit-cube
lattice (volume 1), `has_lattice()` is true from construction even when
`set_lattice` is never called, and every MD step then wraps positions through
`apply_pbc`; but a non-periodic MD state is still reachable through the
public interface, because `set_lattice` accepts a zero-volume basis
(see the counterexample). -/
theorem C9_amended :
    ({} : Lattice).volume = 1 ∧
    (∀ (p : SimulationParams) (pot : Option Potential),
      (mkSimulation p pot).lattice = ({} : Lattice) ∧
      MdSim.has_lattice (mkSimulation p pot) = true) ∧
    (∀ sim : MdSim, sim.valid = true → sim.finished = false →
      sim.thermostat = none → sim.has_lattice = true →
      (sim.step).2.system.map Particle.pos =
        (apply_pbc sim.lattice (sim.integrator.step1 sim.system)).map Particle.pos) := by
  refine ⟨defaultLattice_volume, ?_, ?_⟩
  · intro p pot
    refine ⟨mkSimulation_lattice p pot, ?_⟩
    rw [MdSim.has_lattice, mkSimulation_lattice p pot]
    simp [defaultLattice_volume]
  · intro sim hv hf hth hlat
    have hnb := md_finished_false_no_budget sim hv hf
    simp only [MdSim.step]
    rw [if_neg (by simp [hv]), if_neg (by simp [hf]), if_neg hnb, if_pos hlat]
    have hthermo : (MdSim.compute_forces
        { sim with system := apply_pbc sim.lattice (sim.integrator.step1 sim.system) }).thermostat =
        none := by
      rw [compute_forces_thermostat]
      exact hth
    rw [hthermo]
    have hpos := compute_forces_map_pos
      { sim with system := apply_pbc sim.lattice (sim.integrator.step1 sim.system) }
    split_ifs with h1 h2
    · simp only
      rw [step2_map_pos, hpos]
    · simp only
      rw [step2_map_pos, hpos]
    · simp only
      rw [step2_map_pos, hpos]

/-- Default MD simulation with one externally seeded particle at x = 2.5,
used as the C9 witness. -/
def simW : MdSim :=
  { mkSimulation {} none with
      system := [⟨⟨5 / 2, 0, 0⟩, ⟨0, 0, 0⟩, ⟨0, 0, 0⟩, 1⟩] }

lemma simW_eq : simW =
    { params := {}, time := 0, step_count := 0, valid := true, error_msg := "",
      system := [⟨⟨5 / 2, 0, 0⟩, ⟨0, 0, 0⟩, ⟨0, 0, 0⟩, 1⟩], lattice := {},
      integrator := mkVelocityVerlet (1 / 10 ^ 15), force_field := none,
      neighbor_force_field := none, thermostat := none, last_epot := 0 } := by
  rw [simW, mkSimulation_default]

/-- Witness for the amended C9: default parameters, one particle at
x = 2.5 — the step wraps it into the default unit cell. -/
theorem C9_amended_witness :
    simW.valid = true ∧
    (simW.step).2.system.map Particle.pos =
      (apply_pbc simW.lattice
        (simW.integrator.step1 simW.system)).map Particle.pos :=
  ⟨by rw [simW_eq],
    C9_amended.2.2 simW (by rw [simW_eq])
      (by rw [simW_eq]; norm_num [MdSim.finished])
      (by rw [simW_eq])
      (by rw [simW_eq]; simp [MdSim.has_lattice, defaultLattice_volume])⟩

end Matsimu
